import Mathlib

/-!
Shallow embedding of the zfs-backup-manager retention engine
(src/src/zfs_backup_manager/__init__.py and types.py).

Modelling conventions:
* A Python `datetime.date` is a `Date` record of year / month / day
  natural numbers; comparison of dates is lexicographic on
  (year, month, day), as in CPython.
* Retention counts and anchors are natural numbers, matching the data
  model of the configuration (non-negative counts, day anchors).
* The backend (the `zfs` executable) is modelled at the interface the
  program uses it through: a raw listing of (dataset, identifier)
  pairs for queries, and success/failure oracles for the `create` and
  `destroy` mutations.  The mutable backend state is a map from
  dataset name to the list of capture dates present.
* `strptime_ymd` reproduces the CPython `_strptime` matching of the
  format `<prefix>%Y%m%d` on whitespace-free identifiers: the literal
  part matches ASCII case-insensitively, `%Y` is exactly four digits,
  `%m` and `%d` are matched by the alternations `1[0-2]|0[1-9]|[1-9]`
  and `3[01]|[12][0-9]|0[1-9]|[1-9]` in that backtracking order, the
  whole string must be consumed, and the resulting numbers must form
  a valid proleptic Gregorian date with year between 1 and 9999 (the
  `datetime.date` constructor bounds).
-/

/-- A calendar date, the counterpart of a Python `datetime.date` value. -/
structure Date where
  y : Nat
  m : Nat
  d : Nat
deriving DecidableEq, Repr

/-- Gregorian leap-year test. -/
def isLeap (y : Nat) : Bool :=
  y % 4 == 0 && (y % 100 != 0 || y % 400 == 0)

/-- Number of days in a month of a given year. -/
def daysInMonth (y m : Nat) : Nat :=
  if m = 2 then (if isLeap y then 29 else 28)
  else if m = 4 ∨ m = 6 ∨ m = 9 ∨ m = 11 then 30
  else 31

/-- Validity bounds enforced by the `datetime.date` constructor. -/
def Date.validYMD (dt : Date) : Bool :=
  decide (1 ≤ dt.y ∧ dt.y ≤ 9999 ∧ 1 ≤ dt.m ∧ dt.m ≤ 12 ∧
    1 ≤ dt.d ∧ dt.d ≤ daysInMonth dt.y dt.m)

/-- Day count of a date in a proleptic Gregorian calendar (days since
0000-03-01), via the standard era decomposition. -/
def Date.rata (dt : Date) : Nat :=
  let y := if dt.m ≤ 2 then dt.y - 1 else dt.y
  let era := y / 400
  let yoe := y % 400
  let mp := if 2 < dt.m then dt.m - 3 else dt.m + 9
  let doy := (153 * mp + 2) / 5 + dt.d - 1
  let doe := yoe * 365 + yoe / 4 - yoe / 100 + doy
  era * 146097 + doe

/-- ISO weekday (Monday = 1 .. Sunday = 7), the counterpart of the
Python `date.isoweekday` method. -/
def Date.isoweekday (dt : Date) : Nat :=
  (dt.rata + 2) % 7 + 1

/-- The `date.day` accessor. -/
def Date.day (dt : Date) : Nat := dt.d

/-- Date comparison: lexicographic on (year, month, day), exactly the
order CPython uses on `datetime.date` values. -/
def Date.le (a b : Date) : Bool :=
  decide (a.y < b.y ∨ (a.y = b.y ∧ (a.m < b.m ∨ (a.m = b.m ∧ a.d ≤ b.d))))

/-- The descending order used to present catalogs most-recent-first
(the `sort(reverse=True)` call). -/
def dge (a b : Date) : Prop := Date.le b a = true

instance : DecidableRel dge := fun a b =>
  inferInstanceAs (Decidable (Date.le b a = true))

theorem date_le_iff {a b : Date} :
    Date.le a b = true ↔
      (a.y < b.y ∨ (a.y = b.y ∧ (a.m < b.m ∨ (a.m = b.m ∧ a.d ≤ b.d)))) := by
  simp [Date.le]

instance : IsTotal Date dge := by
  constructor
  intro a b
  simp only [dge, date_le_iff]
  omega

instance : IsTrans Date dge := by
  constructor
  intro a b c hab hbc
  simp only [dge, date_le_iff] at *
  omega

theorem dge_antisymm {a b : Date} (h1 : dge a b) (h2 : dge b a) : a = b := by
  cases a; cases b
  simp only [dge, date_le_iff] at h1 h2
  simp only [Date.mk.injEq]
  omega

theorem date_le_refl (a : Date) : Date.le a a = true := by
  simp [date_le_iff]

/-- Descending sort of a list of dates, modelling the Python
`list.sort(reverse=True)` call on a list of `date` values. -/
def sortDesc (l : List Date) : List Date :=
  l.insertionSort dge

theorem sortDesc_sorted (l : List Date) : List.Sorted dge (sortDesc l) :=
  List.sorted_insertionSort dge l

theorem sortDesc_perm (l : List Date) : (sortDesc l).Perm l :=
  List.perm_insertionSort dge l

/-! ## The strptime-based identifier parser -/

/-- Numeric value of an ASCII digit character. -/
def dv (c : Char) : Nat := c.toNat - 48

/-- ASCII digit test. -/
def isDig (c : Char) : Bool := decide (48 ≤ c.toNat ∧ c.toNat ≤ 57)

/-- ASCII lower-casing on the character code, for the case-insensitive
matching that `_strptime` performs on literal format characters. -/
def lowerNat (c : Char) : Nat :=
  if 65 ≤ c.toNat ∧ c.toNat ≤ 90 then c.toNat + 32 else c.toNat

/-- ASCII case-insensitive character equality. -/
def ciEq (a b : Char) : Bool := decide (lowerNat a = lowerNat b)

/-- Match the literal (escaped) part of the format against the start of
the input, case-insensitively, returning the remaining input. -/
def dropLit : List Char → List Char → Option (List Char)
  | [], s => some s
  | _ :: _, [] => none
  | p :: ps, c :: cs => if ciEq p c then dropLit ps cs else none

/-- The `%m` alternatives `1[0-2]|0[1-9]|[1-9]` in backtracking order:
every way the month field can match a prefix of the input, most
preferred first. -/
def mAlts : List Char → List (Nat × List Char)
  | c1 :: c2 :: r =>
    (if c1 = '1' ∧ (c2 = '0' ∨ c2 = '1' ∨ c2 = '2') then [(10 + dv c2, r)] else []) ++
    (if c1 = '0' ∧ isDig c2 ∧ c2 ≠ '0' then [(dv c2, r)] else []) ++
    (if isDig c1 ∧ c1 ≠ '0' then [(dv c1, c2 :: r)] else [])
  | [c1] => if isDig c1 ∧ c1 ≠ '0' then [(dv c1, [])] else []
  | [] => []

/-- The `%d` alternatives `3[01]|[12][0-9]|0[1-9]|[1-9]` in
backtracking order. -/
def dAlts : List Char → List (Nat × List Char)
  | c1 :: c2 :: r =>
    (if c1 = '3' ∧ (c2 = '0' ∨ c2 = '1') then [(30 + dv c2, r)] else []) ++
    (if (c1 = '1' ∨ c1 = '2') ∧ isDig c2 then [(10 * dv c1 + dv c2, r)] else []) ++
    (if c1 = '0' ∧ isDig c2 ∧ c2 ≠ '0' then [(dv c2, r)] else []) ++
    (if isDig c1 ∧ c1 ≠ '0' then [(dv c1, c2 :: r)] else [])
  | [c1] => if isDig c1 ∧ c1 ≠ '0' then [(dv c1, [])] else []
  | [] => []

/-- First regex match for `%m%d` against the input, in backtracking
order: the first month alternative whose remainder admits a day
alternative wins, and within it the first day alternative. -/
def mdMatch (cs : List Char) : Option (Nat × Nat × List Char) :=
  (mAlts cs).findSome? (fun mr =>
    ((dAlts mr.2).head?).map (fun dr => (mr.1, dr.1, dr.2)))

/-- CPython `datetime.strptime(s, fmt + "%Y%m%d").date()` on a
whitespace-free identifier, returning `none` exactly when the call
raises `ValueError`. -/
def strptime_ymd (fmt : List Char) (s : List Char) : Option Date :=
  match dropLit fmt s with
  | none => none
  | some cs =>
    match cs with
    | y1 :: y2 :: y3 :: y4 :: rest =>
      if isDig y1 ∧ isDig y2 ∧ isDig y3 ∧ isDig y4 then
        match mdMatch rest with
        | some (m, d, leftover) =>
          if leftover = [] then
            let dt : Date := ⟨1000 * dv y1 + 100 * dv y2 + 10 * dv y3 + dv y4, m, d⟩
            if dt.validYMD then some dt else none
          else none
        | none => none
      else none
    | _ => none

/-- The per-dataset snapshot capture dates that `get_sorted_snapshots`
computes from the raw backend listing of (dataset, identifier) pairs:
identifiers are parsed against the configured prefix, failures are
dropped by the `except ValueError: pass` branch, and the collected
dates are sorted most-recent-first. -/
def get_sorted_snapshots (snapshot_pfx : String)
    (raw_listing : List (String × String)) (dataset : String) : List Date :=
  sortDesc (raw_listing.filterMap (fun p =>
    if p.1 = dataset then strptime_ymd snapshot_pfx.data p.2.data else none))

example : strptime_ymd "".data "20240110".data = some ⟨2024, 1, 10⟩ := by decide
example : strptime_ymd "".data "202411".data = some ⟨2024, 1, 1⟩ := by decide
example : strptime_ymd "".data "2024101".data = some ⟨2024, 10, 1⟩ := by decide
example : strptime_ymd "".data "20240230".data = none := by decide
example : strptime_ymd "bak-".data "BAK-20240110".data = some ⟨2024, 1, 10⟩ := by decide
example : strptime_ymd "bak-".data "20240110".data = none := by decide
example : Date.isoweekday ⟨2024, 1, 10⟩ = 3 := by decide
example : Date.isoweekday ⟨2000, 1, 1⟩ = 6 := by decide
example : Date.isoweekday ⟨1970, 1, 1⟩ = 4 := by decide
example : Date.isoweekday ⟨2024, 2, 29⟩ = 4 := by decide
example : Date.isoweekday ⟨1, 1, 1⟩ = 1 := by decide
example : get_sorted_snapshots "" [("tank", "20240108"), ("tank", "20240110"), ("tank", "junk"), ("other", "20240109")] "tank" = [⟨2024, 1, 10⟩, ⟨2024, 1, 8⟩] := by decide

/-! ## Configuration model (types.py) and validation -/

/-- A raw dataset entry of the configuration file: every key may be
absent, including the required `name` (whose absence is the
configuration error). -/
structure RawEntry where
  name : Option String
  recursive : Option Bool
  dom : Option Nat
  dow : Option Nat
  keep_days : Option Nat
  keep_weeks : Option Nat
  keep_months : Option Nat
deriving DecidableEq, Repr

/-- The configuration file contents (the `Config` TypedDict): global
fallback values, the dataset list, and the snapshot name prefix. -/
structure Config where
  dom : Option Nat
  dow : Option Nat
  keep_days : Option Nat
  keep_weeks : Option Nat
  keep_months : Option Nat
  recursive : Option Bool
  datasets : Option (List RawEntry)
  snapshot_pfx : Option String
deriving Repr

/-- A fully resolved dataset entry (the `ValidatedDatasetEntry`
TypedDict): all keys present after defaulting. -/
structure ValidatedDatasetEntry where
  name : String
  recursive : Bool
  dom : Nat
  dow : Nat
  keep_days : Nat
  keep_weeks : Nat
  keep_months : Nat
deriving DecidableEq, Repr

def DEFAULT_DOM : Nat := 1
def DEFAULT_DOW : Nat := 7
def DEFAULT_RECURSIVE : Bool := true
def DEFAULT_KEEP_DAYS : Nat := 0
def DEFAULT_KEEP_WEEKS : Nat := 0
def DEFAULT_KEEP_MONTHS : Nat := 0

/-- Resolution of one dataset entry with a known name: each field falls
back from the dataset entry to the global configuration to the
hard-coded default, exactly the `dataset.get(k, config.get(k, DEF))`
chains. -/
def validateEntry (config : Config) (e : RawEntry) (nm : String) :
    ValidatedDatasetEntry where
  name := nm
  recursive := e.recursive.getD (config.recursive.getD DEFAULT_RECURSIVE)
  dom := e.dom.getD (config.dom.getD DEFAULT_DOM)
  dow := e.dow.getD (config.dow.getD DEFAULT_DOW)
  keep_days := e.keep_days.getD (config.keep_days.getD DEFAULT_KEEP_DAYS)
  keep_weeks := e.keep_weeks.getD (config.keep_weeks.getD DEFAULT_KEEP_WEEKS)
  keep_months := e.keep_months.getD (config.keep_months.getD DEFAULT_KEEP_MONTHS)

/-- The indexed loop of `get_dataset_configs`: the first entry without
a name raises `RuntimeError` carrying that entry's index, modelled as
`Except.error` of the index. -/
def get_dataset_configs_aux (config : Config) :
    Nat → List RawEntry → Except Nat (List ValidatedDatasetEntry)
  | _, [] => .ok []
  | i, e :: rest =>
    match e.name with
    | none => .error i
    | some nm =>
      match get_dataset_configs_aux config (i + 1) rest with
      | .error j => .error j
      | .ok vs => .ok (validateEntry config e nm :: vs)

/-- `get_dataset_configs`: validates the configured dataset entries,
returning the resolved entries or the index of the first entry that is
missing the required `name` key. -/
def get_dataset_configs (config : Config) :
    Except Nat (List ValidatedDatasetEntry) :=
  get_dataset_configs_aux config 0 (config.datasets.getD [])

/-! ## Scheduler and retention engine (the body of `main`) -/

/-- The due test of `main`: the condition of the `if not (...)
continue` guard that decides whether any capture or pruning happens for
a dataset today. -/
def is_due (e : ValidatedDatasetEntry) (today : Date) : Bool :=
  decide (0 < e.keep_days) ||
  (decide (0 < e.keep_weeks) && decide (today.isoweekday = e.dow)) ||
  (decide (0 < e.keep_months) && decide (today.day = e.dom))

/-- `set(dataset_snapshots[: keep_days])`. -/
def keep_daily_set (e : ValidatedDatasetEntry) (dataset_snapshots : List Date) :
    Finset Date :=
  (dataset_snapshots.take e.keep_days).toFinset

/-- `set([s for s in dataset_snapshots if s.isoweekday() == dow][: keep_weeks])`. -/
def keep_weekly_set (e : ValidatedDatasetEntry) (dataset_snapshots : List Date) :
    Finset Date :=
  ((dataset_snapshots.filter (fun s => decide (s.isoweekday = e.dow))).take
    e.keep_weeks).toFinset

/-- `set([s for s in dataset_snapshots if s.day == dom][: keep_months])`. -/
def keep_monthly_set (e : ValidatedDatasetEntry) (dataset_snapshots : List Date) :
    Finset Date :=
  ((dataset_snapshots.filter (fun s => decide (s.day = e.dom))).take
    e.keep_months).toFinset

/-- `keep_set = keep_daily_set | keep_weekly_set | keep_monthly_set`. -/
def keep_set (e : ValidatedDatasetEntry) (dataset_snapshots : List Date) :
    Finset Date :=
  keep_daily_set e dataset_snapshots ∪ keep_weekly_set e dataset_snapshots ∪
    keep_monthly_set e dataset_snapshots

/-- `set(dataset_snapshots) - keep_set`: the set of dates whose
snapshots the destroy loop iterates over. -/
def del_set (e : ValidatedDatasetEntry) (dataset_snapshots : List Date) :
    Finset Date :=
  dataset_snapshots.toFinset \ keep_set e dataset_snapshots

/-- One enumeration of `set(dataset_snapshots) - keep_set`: each
distinct non-kept date once (Python iterates the set itself; the set
only determines which dates, not the order). -/
def del_list (e : ValidatedDatasetEntry) (dataset_snapshots : List Date) :
    List Date :=
  dataset_snapshots.dedup.filter
    (fun s => decide (s ∉ keep_set e dataset_snapshots))

/-- A backend mutation request: a `zfs snapshot` or `zfs destroy`
invocation for one dataset and capture date. -/
inductive Op where
  | create (name : String) (d : Date) (recursive : Bool)
  | destroy (name : String) (d : Date) (recursive : Bool)
deriving DecidableEq, Repr

/-- The backend snapshot state: for each dataset, the capture dates of
the snapshots that currently exist (the source of truth `zfs list`
reads). -/
def Snaps : Type := String → List Date

/-- Pointwise update of the backend state at one dataset name. -/
def updateSnaps (st : Snaps) (name : String) (l : List Date) : Snaps :=
  fun n => if n = name then l else st n

/-- The catalog view `get_sorted_snapshots(config)[name]` of the
backend state: the dates for the dataset, most recent first. -/
def catalogOf (st : Snaps) (name : String) : List Date :=
  sortDesc (st name)

/-- Effect of one `zfs destroy` attempt on the backend state: the date
disappears when the call succeeds, nothing changes when it fails. -/
def destroy_one (name : String) (destroyOk : String → Date → Bool)
    (st : Snaps) (d : Date) : Snaps :=
  if destroyOk name d then
    updateSnaps st name ((st name).filter (fun x => decide (x ≠ d)))
  else st

/-- The per-dataset body of the loop of `main` (dry_run = False): the
due guard, the already-exists guard (which `continue`s), the create
attempt, the re-query of the catalog, the keep-set computation and the
destroy loop.  Returns the backend requests issued for this dataset, in
order, and the backend state afterwards.  `createOk`/`destroyOk` say
which backend calls succeed; a failed call is logged and skipped. -/
def process_dataset (e : ValidatedDatasetEntry) (today : Date)
    (createOk destroyOk : String → Date → Bool) (st : Snaps) :
    List Op × Snaps :=
  if is_due e today = false then ([], st)
  else if today ∈ catalogOf st e.name then ([], st)
  else
    let st1 := if createOk e.name today then
        updateSnaps st e.name (today :: st e.name)
      else st
    let dataset_snapshots := catalogOf st1 e.name
    let toDelete := del_list e dataset_snapshots
    let st2 := toDelete.foldl (fun s d => destroy_one e.name destroyOk s d) st1
    (Op.create e.name today e.recursive ::
      toDelete.map (fun d => Op.destroy e.name d e.recursive), st2)

/-- Sequential processing of the configured datasets, accumulating the
issued backend requests and threading the backend state. -/
def run_datasets (today : Date) (createOk destroyOk : String → Date → Bool) :
    List ValidatedDatasetEntry → Snaps → List Op × Snaps
  | [], st => ([], st)
  | e :: rest, st =>
    let r := process_dataset e today createOk destroyOk st
    let rr := run_datasets today createOk destroyOk rest r.2
    (r.1 ++ rr.1, rr.2)

/-- `main` (dry_run = False): the `which("zfs")` availability check,
configuration validation, and the dataset loop.  Returns the exit
status, the backend requests issued, and the final backend state.
(Named `zbm_main` because a bare `main` has a reserved meaning in
Lean.) -/
def zbm_main (zfs_available : Bool) (config : Config) (today : Date)
    (createOk destroyOk : String → Date → Bool) (st : Snaps) :
    Nat × List Op × Snaps :=
  if zfs_available = false then (2, [], st)
  else
    match get_dataset_configs config with
    | .error _ => (3, [], st)
    | .ok dataset_configs =>
      let r := run_datasets today createOk destroyOk dataset_configs st
      (0, r.1, r.2)

/-! ## Helper lemmas -/

theorem mem_keep_set {e : ValidatedDatasetEntry} {l : List Date} {x : Date} :
    x ∈ keep_set e l ↔
      (x ∈ l.take e.keep_days ∨
        x ∈ (l.filter (fun s => decide (s.isoweekday = e.dow))).take e.keep_weeks ∨
        x ∈ (l.filter (fun s => decide (s.day = e.dom))).take e.keep_months) := by
  simp [keep_set, keep_daily_set, keep_weekly_set, keep_monthly_set, or_assoc]

theorem keep_set_subset (e : ValidatedDatasetEntry) (l : List Date) :
    keep_set e l ⊆ l.toFinset := by
  intro x hx
  rw [List.mem_toFinset]
  rcases mem_keep_set.mp hx with h | h | h
  · exact List.take_subset _ _ h
  · exact (List.filter_sublist _).subset (List.take_subset _ _ h)
  · exact (List.filter_sublist _).subset (List.take_subset _ _ h)

theorem take_toFinset_card_le (n : Nat) (m : List Date) :
    ((m.take n).toFinset).card ≤ n := by
  calc (m.take n).toFinset.card ≤ (m.take n).length := List.toFinset_card_le _
    _ ≤ n := by rw [List.length_take]; exact min_le_left _ _

/-! ## Concrete sample data for witnesses and counterexamples -/

/-- A Wednesday. -/
def sampleToday : Date := ⟨2024, 1, 10⟩

def sampleYesterday : Date := ⟨2024, 1, 9⟩

/-- A catalog already containing the sample day, most recent first. -/
def sampleCatalog : List Date := [⟨2024, 1, 10⟩, ⟨2024, 1, 9⟩]

/-- Backend oracle on which every call succeeds. -/
def allOk : String → Date → Bool := fun _ _ => true

/-- Backend oracle on which every call fails. -/
def noneOk : String → Date → Bool := fun _ _ => false

/-- Backend state with no snapshots at all. -/
def emptySnaps : Snaps := fun _ => []

/-- Backend state where dataset tank has the sample day and the day
before. -/
def sampleSnaps : Snaps :=
  fun n => if n = "tank" then [⟨2024, 1, 9⟩, ⟨2024, 1, 10⟩] else []

/-- A policy with every tier disabled. -/
def entryZero : ValidatedDatasetEntry :=
  ⟨"tank", true, 1, 7, 0, 0, 0⟩

/-- A daily-only policy keeping one snapshot. -/
def entryDaily : ValidatedDatasetEntry :=
  ⟨"tank", true, 1, 7, 1, 0, 0⟩

/-- A policy with large counts and a Wednesday weekly anchor. -/
def entryBig : ValidatedDatasetEntry :=
  ⟨"tank", true, 1, 3, 5, 5, 5⟩

/-! ## Claim theorems -/

/-- C2: for every policy and every strictly-descending duplicate-free
catalog sequence, the keep set is the union of the first keepDays
dates, the first keepWeeks dates among those on the dayOfWeek anchor,
and the first keepMonths dates among those on the dayOfMonth anchor;
a zero count contributes the empty set, each slice is taken from the
full filtered sequence, and a count at least the number of matching
dates keeps all matching dates. -/
theorem C2_keep_set_tiers (e : ValidatedDatasetEntry) (l : List Date)
    (hsorted : List.Sorted dge l) (hnodup : l.Nodup) :
    keep_set e l = (l.take e.keep_days).toFinset ∪
      ((l.filter (fun s => decide (s.isoweekday = e.dow))).take e.keep_weeks).toFinset ∪
      ((l.filter (fun s => decide (s.day = e.dom))).take e.keep_months).toFinset ∧
    (e.keep_days = 0 → keep_daily_set e l = ∅) ∧
    (e.keep_weeks = 0 → keep_weekly_set e l = ∅) ∧
    (e.keep_months = 0 → keep_monthly_set e l = ∅) ∧
    (l.length ≤ e.keep_days → keep_daily_set e l = l.toFinset) ∧
    ((l.filter (fun s => decide (s.isoweekday = e.dow))).length ≤ e.keep_weeks →
      keep_weekly_set e l = (l.filter (fun s => decide (s.isoweekday = e.dow))).toFinset) ∧
    ((l.filter (fun s => decide (s.day = e.dom))).length ≤ e.keep_months →
      keep_monthly_set e l = (l.filter (fun s => decide (s.day = e.dom))).toFinset) := by
  refine ⟨rfl, ?_, ?_, ?_, ?_, ?_, ?_⟩
  · intro h; simp [keep_daily_set, h]
  · intro h; simp [keep_weekly_set, h]
  · intro h; simp [keep_monthly_set, h]
  · intro h; simp [keep_daily_set, List.take_of_length_le h]
  · intro h; simp [keep_weekly_set, List.take_of_length_le h]
  · intro h; simp [keep_monthly_set, List.take_of_length_le h]

/-- Witness for C2 at a concrete policy and catalog. -/
theorem C2_witness :
    List.Sorted dge sampleCatalog ∧ sampleCatalog.Nodup ∧
    keep_daily_set entryBig sampleCatalog = sampleCatalog.toFinset ∧
    keep_monthly_set entryZero sampleCatalog = ∅ := by
  refine ⟨by decide, by decide, ?_, ?_⟩
  · exact (C2_keep_set_tiers entryBig sampleCatalog (by decide)
      (by decide)).2.2.2.2.1 (by decide)
  · exact (C2_keep_set_tiers entryZero sampleCatalog (by decide)
      (by decide)).2.2.2.1 rfl

/-- C3: the due test holds exactly when some enabled tier triggers
today; when it fails, the dataset is skipped entirely: no request is
issued and the backend state is untouched; a policy with all three
counts zero is never due. -/
theorem C3_is_due_characterization :
    (∀ (e : ValidatedDatasetEntry) (t : Date),
      is_due e t = true ↔
        (0 < e.keep_days ∨ (0 < e.keep_weeks ∧ t.isoweekday = e.dow) ∨
          (0 < e.keep_months ∧ t.day = e.dom))) ∧
    (∀ (e : ValidatedDatasetEntry) (t : Date) (cOk dOk : String → Date → Bool)
      (st : Snaps), is_due e t = false →
        process_dataset e t cOk dOk st = ([], st)) ∧
    (∀ (e : ValidatedDatasetEntry) (t : Date),
      e.keep_days = 0 → e.keep_weeks = 0 → e.keep_months = 0 →
        is_due e t = false) := by
  refine ⟨?_, ?_, ?_⟩
  · intro e t; simp [is_due, or_assoc]
  · intro e t cOk dOk st h; simp [process_dataset, h]
  · intro e t h1 h2 h3; simp [is_due, h1, h2, h3]

/-- Witness for C3: the all-zero policy is not due on the sample day
and its processing issues nothing and mutates nothing. -/
theorem C3_witness :
    is_due entryZero sampleToday = false ∧
    process_dataset entryZero sampleToday allOk allOk sampleSnaps =
      ([], sampleSnaps) := by
  have h := C3_is_due_characterization
  have hz : is_due entryZero sampleToday = false :=
    h.2.2 entryZero sampleToday rfl rfl rfl
  exact ⟨hz, h.2.1 entryZero sampleToday allOk allOk sampleSnaps hz⟩

/-- C4: the deletion set is exactly the complement of the keep set
inside the full catalog: the two are disjoint, their union is the full
catalog, and the list of dates the destroy loop ranges over has
exactly the deletion set as its members (its order being outside what
the engine defines). -/
theorem C4_del_set_complement (e : ValidatedDatasetEntry) (l : List Date) :
    del_set e l ∩ keep_set e l = ∅ ∧
    del_set e l ∪ keep_set e l = l.toFinset ∧
    (del_list e l).toFinset = del_set e l := by
  refine ⟨?_, ?_, ?_⟩
  · simp [del_set, Finset.sdiff_inter_self]
  · exact Finset.sdiff_union_of_subset (keep_set_subset e l)
  · ext x
    simp [del_list, del_set, List.mem_filter, List.mem_dedup, Finset.mem_sdiff]

/-- C5: the keep set never exceeds the sum of the three retention
counts and only contains catalog dates. -/
theorem C5_keep_set_bounds (e : ValidatedDatasetEntry) (l : List Date) :
    (keep_set e l).card ≤ e.keep_days + e.keep_weeks + e.keep_months ∧
    keep_set e l ⊆ l.toFinset := by
  constructor
  · calc (keep_set e l).card
        ≤ (keep_daily_set e l ∪ keep_weekly_set e l).card +
            (keep_monthly_set e l).card := Finset.card_union_le _ _
      _ ≤ ((keep_daily_set e l).card + (keep_weekly_set e l).card) +
            (keep_monthly_set e l).card := by
          exact Nat.add_le_add_right (Finset.card_union_le _ _) _
      _ ≤ e.keep_days + e.keep_weeks + e.keep_months := by
          have h1 := take_toFinset_card_le e.keep_days l
          have h2 := take_toFinset_card_le e.keep_weeks
            (l.filter (fun s => decide (s.isoweekday = e.dow)))
          have h3 := take_toFinset_card_le e.keep_months
            (l.filter (fun s => decide (s.day = e.dom)))
          simp only [keep_daily_set, keep_weekly_set, keep_monthly_set]
          omega
  · exact keep_set_subset e l

/-- The RetentionPolicyEngine contract signature of the design:
keepSet(policy, sortedDescendingDates, referenceToday).  Its body is
the keep-set block of main, in whose scope the reference date is
available but unread. -/
def keepSetEngine (e : ValidatedDatasetEntry) (sortedDates : List Date)
    (referenceToday : Date) : Finset Date :=
  keep_set e sortedDates

/-- The corresponding deletion-set computation under the same
signature. -/
def delSetEngine (e : ValidatedDatasetEntry) (sortedDates : List Date)
    (referenceToday : Date) : Finset Date :=
  del_set e sortedDates

/-- C10: the keep-set and deletion-set computations are independent of
the reference date: on the same policy and catalog they are identical
for any two reference dates. -/
theorem C10_reference_date_independence (e : ValidatedDatasetEntry)
    (dates : List Date) (t1 t2 : Date) :
    keepSetEngine e dates t1 = keepSetEngine e dates t2 ∧
    delSetEngine e dates t1 = delSetEngine e dates t2 :=
  ⟨rfl, rfl⟩

/-- In a descending-sorted list, an element that dominates every
element of the list is the head, hence survives any nonempty take. -/
theorem mem_take_of_top (l : List Date) (x : Date) (n : Nat)
    (hs : List.Sorted dge l) (hx : x ∈ l)
    (hmax : ∀ y ∈ l, Date.le y x = true) (hn : 1 ≤ n) : x ∈ l.take n := by
  cases l with
  | nil => cases hx
  | cons h t =>
    have hxh : x = h := by
      rcases List.mem_cons.mp hx with rfl | hxt
      · rfl
      · have h1 : dge h x := (List.sorted_cons.mp hs).1 x hxt
        have h2 : dge x h := hmax h (List.mem_cons_self h t)
        exact (dge_antisymm h1 h2).symm
    obtain ⟨m, rfl⟩ : ∃ m, n = m + 1 := ⟨n - 1, by omega⟩
    rw [List.take_succ_cons]
    exact hxh ▸ List.mem_cons_self x _

/-- C1 (amended): when a due dataset already has a snapshot with
today's capture date, the loop body reports the already-exists
condition and moves to the next dataset: the create is skipped and the
pruning pass is skipped too, so no request is issued and the backend
state is unchanged for that dataset in that run. -/
theorem C1_already_exists_skips_everything (e : ValidatedDatasetEntry)
    (today : Date) (cOk dOk : String → Date → Bool) (st : Snaps)
    (hmem : today ∈ catalogOf st e.name) :
    process_dataset e today cOk dOk st = ([], st) := by
  by_cases h : is_due e today = false
  · simp [process_dataset, h]
  · simp [process_dataset, h, hmem]

/-- Witness for the amended C1 at a concrete dataset whose catalog
already holds today's date. -/
theorem C1_witness :
    sampleToday ∈ catalogOf sampleSnaps "tank" ∧
    process_dataset entryDaily sampleToday allOk allOk sampleSnaps =
      ([], sampleSnaps) :=
  ⟨by decide, C1_already_exists_skips_everything entryDaily sampleToday
    allOk allOk sampleSnaps (by decide)⟩

/-- Counterexample to C1 as stated: a due daily policy with keepDays=1
whose catalog already holds today and one older date.  The claim says
the pruning pass still runs and requests destruction of the complement
(the older date is outside the keep set), but the code issues no
request at all for this dataset. -/
theorem C1_counterexample :
    is_due entryDaily sampleToday = true ∧
    sampleToday ∈ catalogOf sampleSnaps "tank" ∧
    sampleYesterday ∈ del_set entryDaily (catalogOf sampleSnaps "tank") ∧
    (process_dataset entryDaily sampleToday allOk allOk sampleSnaps).1 = [] :=
  ⟨by decide, by decide, by decide, by decide⟩

/-- In a descending catalog bounded by today and containing today, a
due policy keeps today: whichever tier made the dataset due admits
today as the head of its filtered sequence. -/
theorem today_in_keep_set (e : ValidatedDatasetEntry) (today : Date)
    (l : List Date) (hs : List.Sorted dge l) (hmem : today ∈ l)
    (hmax : ∀ d ∈ l, Date.le d today = true) (hdue : is_due e today = true) :
    today ∈ keep_set e l := by
  simp only [is_due, Bool.or_eq_true, Bool.and_eq_true, decide_eq_true_eq]
    at hdue
  rw [mem_keep_set]
  rcases hdue with (hd | ⟨hw, hwd⟩) | ⟨hm, hmd⟩
  · exact Or.inl (mem_take_of_top l today e.keep_days hs hmem hmax hd)
  · refine Or.inr (Or.inl ?_)
    apply mem_take_of_top _ today e.keep_weeks (hs.filter _) _ _ hw
    · exact List.mem_filter.mpr ⟨hmem, by simp [hwd]⟩
    · intro y hy
      exact hmax y ((List.filter_sublist l).subset hy)
  · refine Or.inr (Or.inr ?_)
    apply mem_take_of_top _ today e.keep_months (hs.filter _) _ _ hm
    · exact List.mem_filter.mpr ⟨hmem, by simp [hmd]⟩
    · intro y hy
      exact hmax y ((List.filter_sublist l).subset hy)

/-- Unfolding of the loop body when the dataset is due, no snapshot
exists for today, and the create call succeeds: the requests are the
create followed by the destroys over the refreshed catalog, which now
contains today. -/
theorem process_dataset_create_ok (e : ValidatedDatasetEntry) (today : Date)
    (cOk dOk : String → Date → Bool) (st : Snaps)
    (h1 : is_due e today = true) (h2 : today ∉ catalogOf st e.name)
    (hcOk : cOk e.name today = true) :
    (process_dataset e today cOk dOk st).1 =
      Op.create e.name today e.recursive ::
        (del_list e (sortDesc (today :: st e.name))).map
          (fun d => Op.destroy e.name d e.recursive) := by
  have h1' : ¬ (is_due e today = false) := by simp [h1]
  have h2' : today ∉ sortDesc (st e.name) := by simpa [catalogOf] using h2
  simp [process_dataset, if_neg h1', h2', hcOk, catalogOf, updateSnaps]

/-- Unfolding of the loop body when the dataset is due, no snapshot
exists for today, and the create call fails: the pruning pass still
runs, over the unchanged catalog. -/
theorem process_dataset_create_fail (e : ValidatedDatasetEntry) (today : Date)
    (cOk dOk : String → Date → Bool) (st : Snaps)
    (h1 : is_due e today = true) (h2 : today ∉ catalogOf st e.name)
    (hcOk : cOk e.name today = false) :
    (process_dataset e today cOk dOk st).1 =
      Op.create e.name today e.recursive ::
        (del_list e (catalogOf st e.name)).map
          (fun d => Op.destroy e.name d e.recursive) := by
  have h1' : ¬ (is_due e today = false) := by simp [h1]
  have h2' : today ∉ sortDesc (st e.name) := by simpa [catalogOf] using h2
  simp [process_dataset, if_neg h1', h2', hcOk, catalogOf]

/-- C9: on the engine, a due policy always keeps today when today is
in the (descending, today-bounded) catalog, so today is never in the
deletion set; on the run, a successful create is never followed by a
destroy of today for that dataset in the same pass. -/
theorem C9_today_never_destroyed :
    (∀ (e : ValidatedDatasetEntry) (today : Date) (l : List Date),
      List.Sorted dge l → today ∈ l → (∀ d ∈ l, Date.le d today = true) →
      is_due e today = true →
      today ∈ keep_set e l ∧ today ∉ del_set e l) ∧
    (∀ (e : ValidatedDatasetEntry) (today : Date)
      (cOk dOk : String → Date → Bool) (st : Snaps),
      (∀ d ∈ st e.name, Date.le d today = true) →
      cOk e.name today = true →
      Op.destroy e.name today e.recursive ∉
        (process_dataset e today cOk dOk st).1) := by
  constructor
  · intro e today l hs hmem hmax hdue
    have hk := today_in_keep_set e today l hs hmem hmax hdue
    exact ⟨hk, by simp [del_set, hk]⟩
  · intro e today cOk dOk st hmax hcOk
    by_cases h1 : is_due e today = false
    · simp [process_dataset, h1]
    · have hdue : is_due e today = true := by
        cases h : is_due e today
        · exact absurd h h1
        · rfl
      by_cases h2 : today ∈ catalogOf st e.name
      · simp [process_dataset, h1, h2]
      · rw [process_dataset_create_ok e today cOk dOk st hdue h2 hcOk]
        have hkeep : today ∈ keep_set e (sortDesc (today :: st e.name)) := by
          apply today_in_keep_set e today _ (sortDesc_sorted _) _ _ hdue
          · exact (sortDesc_perm _).mem_iff.mpr (List.mem_cons_self _ _)
          · intro d hd
            rcases List.mem_cons.mp ((sortDesc_perm _).subset hd) with rfl | hd'
            · exact date_le_refl d
            · exact hmax d hd'
        simp only [List.mem_cons, List.mem_map, not_or]
        constructor
        · intro hcon
          cases hcon
        · rintro ⟨d, hd, heq⟩
          have hd_today : d = today := by
            injection heq
          subst hd_today
          have := (List.mem_filter.mp hd).2
          simp only [decide_eq_true_eq] at this
          exact this hkeep

/-- Backend state where dataset tank only has yesterday's snapshot. -/
def yesterdaySnaps : Snaps :=
  fun n => if n = "tank" then [⟨2024, 1, 9⟩] else []

/-- Witness for C9 at a concrete policy, catalog and backend state. -/
theorem C9_witness :
    (sampleToday ∈ keep_set entryDaily sampleCatalog ∧
      sampleToday ∉ del_set entryDaily sampleCatalog) ∧
    Op.destroy entryDaily.name sampleToday entryDaily.recursive ∉
      (process_dataset entryDaily sampleToday allOk allOk yesterdaySnaps).1 := by
  constructor
  · exact C9_today_never_destroyed.1 entryDaily sampleToday sampleCatalog
      (by decide) (by decide) (by decide) (by decide)
  · exact C9_today_never_destroyed.2 entryDaily sampleToday allOk allOk
      yesterdaySnaps (by decide) (by decide)

/-- The dates the listing yields for one dataset, in listing order:
the successfully parsed identifiers of that dataset's entries. -/
def parsed_dates (snapshot_pfx : String)
    (raw_listing : List (String × String)) (dataset : String) : List Date :=
  raw_listing.filterMap (fun p =>
    if p.1 = dataset then strptime_ymd snapshot_pfx.data p.2.data else none)

theorem get_sorted_snapshots_eq_sort_parsed (snapshot_pfx : String)
    (raw_listing : List (String × String)) (dataset : String) :
    get_sorted_snapshots snapshot_pfx raw_listing dataset =
      sortDesc (parsed_dates snapshot_pfx raw_listing dataset) := rfl

/-- C6 (amended): the catalog operation returns, per dataset, exactly
the successfully parsed capture dates of that dataset's listing
entries, sorted descending; unparseable entries are silently dropped;
a dataset with no entries yields the empty sequence; and the result is
duplicate-free whenever the parsed dates are — duplicates in the
listing are NOT removed. -/
theorem C6_catalog_contract :
    (∀ (pfx ds : String) (raw_listing : List (String × String)),
      List.Sorted dge (get_sorted_snapshots pfx raw_listing ds) ∧
      (get_sorted_snapshots pfx raw_listing ds).Perm
        (parsed_dates pfx raw_listing ds)) ∧
    (∀ (pfx ds : String) (raw_listing : List (String × String)),
      (parsed_dates pfx raw_listing ds).Nodup →
      (get_sorted_snapshots pfx raw_listing ds).Nodup) ∧
    (∀ (pfx ds : String) (raw_listing : List (String × String)),
      (∀ p ∈ raw_listing, p.1 ≠ ds) →
      get_sorted_snapshots pfx raw_listing ds = []) := by
  refine ⟨?_, ?_, ?_⟩
  · intro pfx ds raw_listing
    exact ⟨sortDesc_sorted _, sortDesc_perm _⟩
  · intro pfx ds raw_listing h
    exact ((sortDesc_perm _).nodup_iff).mpr h
  · intro pfx ds raw_listing h
    rw [get_sorted_snapshots_eq_sort_parsed]
    have : parsed_dates pfx raw_listing ds = [] := by
      rw [parsed_dates, List.filterMap_eq_nil_iff]
      intro p hp
      simp [h p hp]
    rw [this]
    rfl

/-- A raw listing with two distinct snapshot identifiers for the same
dataset that strptime maps to the same capture date. -/
def dupListing : List (String × String) :=
  [("tank", "20240101"), ("tank", "202411")]

/-- Witness for C6 at concrete listings. -/
theorem C6_witness :
    ¬ (parsed_dates "" dupListing "tank").Nodup ∧
    get_sorted_snapshots "" dupListing "zroot" = [] ∧
    (get_sorted_snapshots "" [("tank", "bak-20240110"), ("tank", "x")] "tank").Nodup := by
  refine ⟨by decide, ?_, ?_⟩
  · exact C6_catalog_contract.2.2 "" "zroot" dupListing (by decide)
  · exact C6_catalog_contract.2.1 "" "tank"
      [("tank", "bak-20240110"), ("tank", "x")] (by decide)

/-- Counterexample to C6 as stated: duplicates are not removed.  Two
snapshots of the same dataset with distinct identifiers both parse to
2024-01-01 (CPython strptime matches a one-digit month and day in
"202411"), and the returned sequence contains the date twice. -/
theorem C6_counterexample :
    get_sorted_snapshots "" dupListing "tank" =
      [⟨2024, 1, 1⟩, ⟨2024, 1, 1⟩] ∧
    ¬ (get_sorted_snapshots "" dupListing "tank").Nodup := by
  constructor
  · decide
  · decide

/-- The validation loop reports the index of the first entry without a
name when one exists. -/
theorem get_dataset_configs_aux_error (config : Config) :
    ∀ (l : List RawEntry) (n : Nat), (∃ e ∈ l, e.name = none) →
    ∃ j, get_dataset_configs_aux config n l = .error (n + j) ∧
      ∃ e, l[j]? = some e ∧ e.name = none := by
  intro l
  induction l with
  | nil => intro n h; simp at h
  | cons e rest ih =>
    intro n hex
    cases he : e.name with
    | none =>
      refine ⟨0, ?_, e, by simp, he⟩
      simp [get_dataset_configs_aux, he]
    | some nm =>
      have hex' : ∃ x ∈ rest, x.name = none := by
        rcases hex with ⟨x, hx, hn⟩
        rcases List.mem_cons.mp hx with rfl | hmem
        · rw [he] at hn; cases hn
        · exact ⟨x, hmem, hn⟩
      rcases ih (n + 1) hex' with ⟨j, herr, x, hget, hn⟩
      refine ⟨j + 1, ?_, x, by simpa using hget, hn⟩
      have harith : n + 1 + j = n + (j + 1) := by omega
      simp only [get_dataset_configs_aux, he, herr, harith]

/-- The validation loop succeeds when every entry has a name. -/
theorem get_dataset_configs_aux_ok (config : Config) :
    ∀ (l : List RawEntry) (n : Nat), (∀ e ∈ l, e.name ≠ none) →
    ∃ vs, get_dataset_configs_aux config n l = .ok vs := by
  intro l
  induction l with
  | nil => intro n _; exact ⟨[], rfl⟩
  | cons e rest ih =>
    intro n hall
    cases he : e.name with
    | none => exact absurd he (hall e (List.mem_cons_self e rest))
    | some nm =>
      rcases ih (n + 1) (fun x hx => hall x (List.mem_cons_of_mem _ hx)) with
        ⟨vs, hvs⟩
      exact ⟨validateEntry config e nm :: vs,
        by simp [get_dataset_configs_aux, he, hvs]⟩

/-- C7: a missing `name` in some dataset entry aborts the run with
status 3 before any dataset is processed, reporting the index of the
offending entry; an unavailable backend tool aborts immediately with
status 2; the two statuses are distinct from each other and from
success, and in both cases no backend request is issued and the
backend state is untouched. -/
theorem C7_fatal_errors (config : Config) (today : Date)
    (cOk dOk : String → Date → Bool) (st : Snaps) :
    zbm_main false config today cOk dOk st = (2, [], st) ∧
    ((∃ e ∈ config.datasets.getD [], e.name = none) →
      ∃ j, get_dataset_configs config = .error j ∧
        (∃ e, (config.datasets.getD [])[j]? = some e ∧ e.name = none) ∧
        zbm_main true config today cOk dOk st = (3, [], st)) ∧
    ((2 : Nat) ≠ 3 ∧ (2 : Nat) ≠ 0 ∧ (3 : Nat) ≠ 0) := by
  refine ⟨rfl, ?_, by decide⟩
  intro hex
  rcases get_dataset_configs_aux_error config (config.datasets.getD []) 0 hex
    with ⟨j, herr, e, hget, hn⟩
  rw [Nat.zero_add] at herr
  have herr' : get_dataset_configs config = .error j := herr
  refine ⟨j, herr', ⟨e, hget, hn⟩, ?_⟩
  simp [zbm_main, herr']

/-- An entry with no name at all. -/
def rawNoName : RawEntry := ⟨none, none, none, none, none, none, none⟩

/-- A configuration whose only dataset entry is missing its name. -/
def cfgBad : Config := ⟨none, none, none, none, none, none, some [rawNoName], none⟩

/-- Witness for C7 on the concrete bad configuration. -/
theorem C7_witness :
    (∃ e ∈ cfgBad.datasets.getD [], e.name = none) ∧
    zbm_main false cfgBad sampleToday allOk allOk emptySnaps =
      (2, [], emptySnaps) ∧
    (∃ j, get_dataset_configs cfgBad = .error j ∧
      (∃ e, (cfgBad.datasets.getD [])[j]? = some e ∧ e.name = none) ∧
      zbm_main true cfgBad sampleToday allOk allOk emptySnaps =
        (3, [], emptySnaps)) := by
  have h := C7_fatal_errors cfgBad sampleToday allOk allOk emptySnaps
  have hex : ∃ e ∈ cfgBad.datasets.getD [], e.name = none :=
    ⟨rawNoName, by decide, rfl⟩
  exact ⟨hex, h.1, h.2.1 hex⟩

/-- The dataset a backend request addresses. -/
def Op.opName : Op → String
  | .create n _ _ => n
  | .destroy n _ _ => n

/-- The destroy loop never touches the backend entries of other
datasets. -/
theorem foldl_destroy_other (name : String) (dOk : String → Date → Bool)
    (l : List Date) (st : Snaps) (n : String) (hn : n ≠ name) :
    (l.foldl (fun s d => destroy_one name dOk s d) st) n = st n := by
  induction l generalizing st with
  | nil => rfl
  | cons d rest ih =>
    rw [List.foldl_cons, ih]
    by_cases h : dOk name d
    · simp [destroy_one, h, updateSnaps, hn]
    · simp [destroy_one, h]

/-- Processing one dataset never touches the backend entries of other
datasets. -/
theorem process_dataset_state_other (e : ValidatedDatasetEntry) (today : Date)
    (cOk dOk : String → Date → Bool) (st : Snaps) (n : String)
    (hn : n ≠ e.name) :
    (process_dataset e today cOk dOk st).2 n = st n := by
  by_cases h1 : is_due e today = false
  · simp [process_dataset, h1]
  · by_cases h2 : today ∈ catalogOf st e.name
    · simp [process_dataset, h1, h2]
    · unfold process_dataset
      rw [if_neg h1, if_neg h2]
      dsimp only
      rw [foldl_destroy_other _ _ _ _ _ hn]
      by_cases h3 : cOk e.name today
      · simp [h3, updateSnaps, hn]
      · simp [h3]

/-- The requests for one dataset as a function of that dataset's
backend entry alone. -/
def dataset_ops (e : ValidatedDatasetEntry) (today : Date)
    (createOk : String → Date → Bool) (snaps_e : List Date) : List Op :=
  if is_due e today = false then []
  else if today ∈ sortDesc snaps_e then []
  else
    let snaps1 := if createOk e.name today then today :: snaps_e else snaps_e
    Op.create e.name today e.recursive ::
      (del_list e (sortDesc snaps1)).map (fun d => Op.destroy e.name d e.recursive)

/-- The requests issued for a dataset depend on the backend state only
through that dataset's own entry, and not on destroy outcomes. -/
theorem process_dataset_fst (e : ValidatedDatasetEntry) (today : Date)
    (cOk dOk : String → Date → Bool) (st : Snaps) :
    (process_dataset e today cOk dOk st).1 =
      dataset_ops e today cOk (st e.name) := by
  by_cases h1 : is_due e today = false
  · simp [process_dataset, dataset_ops, h1]
  · by_cases h2 : today ∈ sortDesc (st e.name)
    · have h2' : today ∈ catalogOf st e.name := h2
      simp [process_dataset, dataset_ops, h1, h2, h2', catalogOf]
    · have h2' : today ∉ catalogOf st e.name := h2
      by_cases h3 : cOk e.name today
      · simp [process_dataset, dataset_ops, h1, h2, h2', h3, catalogOf,
          updateSnaps]
      · simp [process_dataset, dataset_ops, h1, h2, h2', h3, catalogOf]

/-- Every request issued for a dataset carries that dataset's name. -/
theorem dataset_ops_name (e : ValidatedDatasetEntry) (today : Date)
    (cOk : String → Date → Bool) (l : List Date) :
    ∀ o ∈ dataset_ops e today cOk l, o.opName = e.name := by
  intro o ho
  unfold dataset_ops at ho
  split at ho
  · cases ho
  · split at ho
    · cases ho
    · simp only [List.mem_cons, List.mem_map] at ho
      rcases ho with rfl | ⟨d, _, rfl⟩
      · rfl
      · rfl

/-- The requests issued for one dataset are pairwise distinct: one
create, and one destroy per distinct deleted date. -/
theorem dataset_ops_nodup (e : ValidatedDatasetEntry) (today : Date)
    (cOk : String → Date → Bool) (l : List Date) :
    (dataset_ops e today cOk l).Nodup := by
  unfold dataset_ops
  split
  · exact List.nodup_nil
  · split
    · exact List.nodup_nil
    · refine List.nodup_cons.mpr ⟨?_, ?_⟩
      · simp [List.mem_map]
      · apply List.Nodup.map
        · intro a b hab
          simpa using hab
        · exact (List.nodup_dedup _).filter _

/-- Destroy outcomes have no effect on which requests a run issues,
as long as the configured dataset names are distinct: each dataset
reads only its own backend entry, which destroys of other datasets do
not touch, and its own destroys happen after its requests are fixed. -/
theorem run_datasets_ops_indep (today : Date)
    (cOk dOk dOk' : String → Date → Bool) :
    ∀ (entries : List ValidatedDatasetEntry) (st st' : Snaps),
      (entries.map (fun e => e.name)).Nodup →
      (∀ e ∈ entries, st e.name = st' e.name) →
      (run_datasets today cOk dOk entries st).1 =
        (run_datasets today cOk dOk' entries st').1 := by
  intro entries
  induction entries with
  | nil => intro st st' _ _; rfl
  | cons e rest ih =>
    intro st st' hnodup hagree
    rw [List.map_cons] at hnodup
    rcases List.nodup_cons.mp hnodup with ⟨hnotin, htail⟩
    simp only [run_datasets]
    congr 1
    · rw [process_dataset_fst, process_dataset_fst,
        hagree e (List.mem_cons_self e rest)]
    · apply ih _ _ htail
      intro x hx
      have hne : x.name ≠ e.name := by
        intro hcon
        exact hnotin (hcon ▸ List.mem_map_of_mem (fun y => y.name) hx)
      rw [process_dataset_state_other _ _ _ _ _ _ hne,
        process_dataset_state_other _ _ _ _ _ _ hne]
      exact hagree x (List.mem_cons_of_mem e hx)

/-- Every request a run issues is for one of the processed datasets. -/
theorem run_datasets_ops_name (today : Date) (cOk dOk : String → Date → Bool) :
    ∀ (entries : List ValidatedDatasetEntry) (st : Snaps) (o : Op),
      o ∈ (run_datasets today cOk dOk entries st).1 →
      o.opName ∈ entries.map (fun e => e.name) := by
  intro entries
  induction entries with
  | nil => intro st o ho; cases ho
  | cons e rest ih =>
    intro st o ho
    simp only [run_datasets, List.mem_append] at ho
    rcases ho with h | h
    · rw [process_dataset_fst] at h
      simp only [List.map_cons, List.mem_cons]
      exact Or.inl (dataset_ops_name e today cOk (st e.name) o h)
    · simp only [List.map_cons, List.mem_cons]
      exact Or.inr (ih _ o h)

/-- With distinct dataset names, no request of a run is repeated. -/
theorem run_datasets_ops_nodup (today : Date) (cOk dOk : String → Date → Bool) :
    ∀ (entries : List ValidatedDatasetEntry) (st : Snaps),
      (entries.map (fun e => e.name)).Nodup →
      (run_datasets today cOk dOk entries st).1.Nodup := by
  intro entries
  induction entries with
  | nil => intro st _; exact List.nodup_nil
  | cons e rest ih =>
    intro st hnodup
    rw [List.map_cons] at hnodup
    rcases List.nodup_cons.mp hnodup with ⟨hnotin, htail⟩
    simp only [run_datasets]
    apply List.Nodup.append
    · rw [process_dataset_fst]
      exact dataset_ops_nodup e today cOk (st e.name)
    · exact ih _ htail
    · intro o ho1 ho2
      rw [process_dataset_fst] at ho1
      have h1 : o.opName = e.name := dataset_ops_name _ _ _ _ o ho1
      have h2 : o.opName ∈ rest.map (fun x => x.name) :=
        run_datasets_ops_name today cOk dOk rest _ o ho2
      rw [h1] at h2
      exact hnotin h2

/-- C8: per-operation backend failures are non-fatal.  Which requests
a run issues is unchanged by destroy failures (given distinct dataset
names); a failed create is still followed by the full pruning pass of
that dataset over the unchanged catalog; no request is issued twice;
and a run that passes the fatal checks exits with the success status
no matter which create or destroy calls fail. -/
theorem C8_per_operation_failures :
    (∀ (today : Date) (cOk dOk dOk' : String → Date → Bool)
      (entries : List ValidatedDatasetEntry) (st : Snaps),
      (entries.map (fun e => e.name)).Nodup →
      (run_datasets today cOk dOk entries st).1 =
        (run_datasets today cOk dOk' entries st).1) ∧
    (∀ (e : ValidatedDatasetEntry) (today : Date)
      (cOk dOk : String → Date → Bool) (st : Snaps),
      is_due e today = true → today ∉ catalogOf st e.name →
      cOk e.name today = false →
      (process_dataset e today cOk dOk st).1 =
        Op.create e.name today e.recursive ::
          (del_list e (catalogOf st e.name)).map
            (fun d => Op.destroy e.name d e.recursive)) ∧
    (∀ (today : Date) (cOk dOk : String → Date → Bool)
      (entries : List ValidatedDatasetEntry) (st : Snaps),
      (entries.map (fun e => e.name)).Nodup →
      (run_datasets today cOk dOk entries st).1.Nodup) ∧
    (∀ (config : Config) (today : Date) (cOk dOk : String → Date → Bool)
      (st : Snaps), (∀ e ∈ config.datasets.getD [], e.name ≠ none) →
      (zbm_main true config today cOk dOk st).1 = 0) := by
  refine ⟨?_, ?_, ?_, ?_⟩
  · intro today cOk dOk dOk' entries st h
    exact run_datasets_ops_indep today cOk dOk dOk' entries st st h
      (fun _ _ => rfl)
  · exact process_dataset_create_fail
  · intro today cOk dOk entries st h
    exact run_datasets_ops_nodup today cOk dOk entries st h
  · intro config today cOk dOk st hall
    rcases get_dataset_configs_aux_ok config (config.datasets.getD []) 0 hall
      with ⟨vs, hvs⟩
    have hok : get_dataset_configs config = .ok vs := hvs
    simp [zbm_main, hok]

/-- A raw entry for dataset tank keeping one daily snapshot. -/
def rawTank : RawEntry := ⟨some "tank", none, none, none, some 1, none, none⟩

/-- A well-formed configuration with the single dataset tank. -/
def cfgGood : Config :=
  ⟨none, none, none, none, none, none, some [rawTank], none⟩

/-- Witness for C8 on concrete runs: destroy failures leave the request
list unchanged, a failed create still prunes, requests are distinct,
and the exit status is 0 even when every backend call fails. -/
theorem C8_witness :
    (run_datasets sampleToday allOk allOk [entryDaily] yesterdaySnaps).1 =
      (run_datasets sampleToday allOk noneOk [entryDaily] yesterdaySnaps).1 ∧
    (process_dataset entryDaily sampleToday noneOk allOk yesterdaySnaps).1 =
      Op.create entryDaily.name sampleToday entryDaily.recursive ::
        (del_list entryDaily (catalogOf yesterdaySnaps entryDaily.name)).map
          (fun d => Op.destroy entryDaily.name d entryDaily.recursive) ∧
    (run_datasets sampleToday allOk allOk [entryDaily] yesterdaySnaps).1.Nodup ∧
    (zbm_main true cfgGood sampleToday noneOk noneOk yesterdaySnaps).1 = 0 := by
  refine ⟨?_, ?_, ?_, ?_⟩
  · exact C8_per_operation_failures.1 sampleToday allOk allOk noneOk
      [entryDaily] yesterdaySnaps (by decide)
  · exact C8_per_operation_failures.2.1 entryDaily sampleToday noneOk allOk
      yesterdaySnaps (by decide) (by decide) (by decide)
  · exact C8_per_operation_failures.2.2.1 sampleToday allOk allOk
      [entryDaily] yesterdaySnaps (by decide)
  · exact C8_per_operation_failures.2.2.2 cfgGood sampleToday noneOk noneOk
      yesterdaySnaps (by decide)
